import Mathlib

/-!
Verification development for the value_screener repository.

Numbers are modelled as rationals (`ℚ`); nullable quantities (Python `None`
or a pandas `NaN`) are `Option ℚ` with `none` for the null value.  Each
definition below is a direct translation of one function of the source,
named after it.
-/

set_option maxHeartbeats 1000000

namespace ValueScreener

/-- `FinancialRow` dataclass of `value_screener/fetchers.py`. -/
structure FinancialRow where
  ticker : String
  name : Option String
  price : Option ℚ
  market_cap : Option ℚ
  total_debt : Option ℚ
  cash_and_equivalents : Option ℚ
  ebit : Option ℚ
  ebitda : Option ℚ
  operating_cash_flow : Option ℚ
  capital_expenditures : Option ℚ
  interest_expense : Option ℚ := none
  income_tax_expense : Option ℚ := none
  pretax_income : Option ℚ := none
  total_stockholder_equity : Option ℚ := none
  enterprise_value : Option ℚ := none
  deriving DecidableEq

/-- The empty record built by `fetch_yfinance` when a ticker fails: every
field but `ticker` is `None` (the trailing dataclass fields default to
`None`). -/
def nullRecord (t : String) : FinancialRow :=
  { ticker := t, name := none, price := none, market_cap := none,
    total_debt := none, cash_and_equivalents := none, ebit := none,
    ebitda := none, operating_cash_flow := none, capital_expenditures := none }

/-! ### Factor library: `value_screener/metrics.py` -/

/-- `metrics.ev_ebit`. -/
def ev_ebit (ev ebit : Option ℚ) : Option ℚ :=
  match ev, ebit with
  | some e, some b => if b = 0 then none else some (e / b)
  | _, _ => none

/-- `metrics.fcf_yield`. -/
def fcf_yield (market_cap ocf capex : Option ℚ) : Option ℚ :=
  match market_cap, ocf, capex with
  | some m, some o, some c => if m = 0 then none else some ((o - c) / m)
  | _, _, _ => none

/-- `metrics.roic_approx`.  The `math.isfinite` test of the source is always
true over ℚ once the denominator is nonzero, so it has no branch here. -/
def roic_approx (ebit tax_expense pretax_income total_debt equity cash :
    Option ℚ) : Option ℚ :=
  match ebit, total_debt, equity, cash with
  | some e, some d, some q, some c =>
      let tax_rate : ℚ :=
        match pretax_income, tax_expense with
        | some p, some t => if p ≠ 0 then max 0 (min 0.45 (t / p)) else 0.25
        | _, _ => 0.25
      let nopat := e * (1 - tax_rate)
      let invested_capital := d + q - c
      if invested_capital ≤ 0 then none else some (nopat / invested_capital)
  | _, _, _, _ => none

/-- `metrics.interest_coverage`. -/
def interest_coverage (ebit interest_expense : Option ℚ) : Option ℚ :=
  match ebit, interest_expense with
  | some e, some ie =>
      if |ie| = 0 then none else some (e / |ie|)
  | _, _ => none

/-- `metrics.net_debt_to_ebitda`. -/
def net_debt_to_ebitda (total_debt cash ebitda : Option ℚ) : Option ℚ :=
  match total_debt, cash, ebitda with
  | some d, some c, some e => if e = 0 then none else some ((d - c) / e)
  | _, _, _ => none

/-! ### Factor library, scalar paths of `undervaluation/factors/value_factors.py`
and `quality_factors.py` (an `np.nan` result is `none`). -/

/-- `value_factors.calculate_earnings_yield`, scalar path. -/
def calculate_earnings_yield (ebit enterprise_value : Option ℚ) : Option ℚ :=
  match ebit, enterprise_value with
  | some e, some ev => if ev = 0 then none else some (e / ev)
  | _, _ => none

/-- `value_factors.calculate_fcf_yield`, scalar path: the difference
`ocf - capex` is formed first and a null operand poisons it. -/
def calculate_fcf_yield (ocf capex market_cap : Option ℚ) : Option ℚ :=
  let fcf : Option ℚ :=
    match ocf, capex with
    | some o, some c => some (o - c)
    | _, _ => none
  match fcf, market_cap with
  | some f, some m => if m = 0 then none else some (f / m)
  | _, _ => none

/-- `value_factors.calculate_book_to_market`, scalar path. -/
def calculate_book_to_market (total_equity market_cap : Option ℚ) : Option ℚ :=
  match total_equity, market_cap with
  | some t, some m => if m = 0 then none else some (t / m)
  | _, _ => none

/-- `value_factors.calculate_ev_ebit`, scalar path. -/
def calculate_ev_ebit (enterprise_value ebit : Option ℚ) : Option ℚ :=
  match enterprise_value, ebit with
  | some ev, some e => if e = 0 then none else some (ev / e)
  | _, _ => none

/-- `quality_factors.calculate_gross_profitability`, scalar path. -/
def calculate_gross_profitability (gross_profit total_assets : Option ℚ) :
    Option ℚ :=
  match gross_profit, total_assets with
  | some g, some t => if t = 0 then none else some (g / t)
  | _, _ => none

/-- `quality_factors.calculate_interest_coverage`, scalar path. -/
def calculate_interest_coverage (ebit interest_expense : Option ℚ) : Option ℚ :=
  match ebit, interest_expense with
  | some e, some ie => if |ie| = 0 then none else some (e / |ie|)
  | _, _ => none

/-- `quality_factors.calculate_roic`, scalar path: the tax rate is estimated
first, NOPAT and invested capital are formed with null propagation, and the
final guard returns null on a null or non-positive invested capital. -/
def calculate_roic (ebit tax_expense pretax_income total_debt total_equity
    cash : Option ℚ) : Option ℚ :=
  let tax_rate : ℚ :=
    match tax_expense, pretax_income with
    | some t, some p => if p ≠ 0 then max 0 (min 0.45 (t / p)) else 0.25
    | _, _ => 0.25
  let nopat : Option ℚ := ebit.map (fun e => e * (1 - tax_rate))
  let invested_capital : Option ℚ :=
    match total_debt, total_equity, cash with
    | some d, some q, some c => some (d + q - c)
    | _, _, _ => none
  match nopat, invested_capital with
  | some np, some ic => if ic ≤ 0 then none else some (np / ic)
  | _, _ => none

/-- Tax-rate estimate as the spec words it: `income_tax_expense /
pretax_income` clipped to `[0, 0.45]`, falling back to `0.25` when
`pretax_income` is null or zero or the ratio cannot be formed. -/
def specTaxRate (tax_expense pretax_income : Option ℚ) : ℚ :=
  match tax_expense, pretax_income with
  | some t, some p => if p = 0 then 0.25 else max 0 (min 0.45 (t / p))
  | _, _ => 0.25

/-- ROIC as the spec words it: `NOPAT = ebit * (1 - tax_rate)`,
`invested_capital = total_debt + total_equity - cash`, null when a required
input is null or `invested_capital ≤ 0`. -/
def roic_spec (ebit tax_expense pretax_income total_debt total_equity cash :
    Option ℚ) : Option ℚ :=
  match ebit, total_debt, total_equity, cash with
  | some e, some d, some q, some c =>
      let rate := specTaxRate tax_expense pretax_income
      let invested := d + q - c
      if invested ≤ 0 then none else some (e * (1 - rate) / invested)
  | _, _, _, _ => none

/-! ### Ingestion engine: `fetch_yfinance` of `value_screener/fetchers.py` -/

/-- Python `enumerate` starting at `s`. -/
def pyEnum {α : Type} (s : Nat) : List α → List (Nat × α)
  | [] => []
  | a :: t => (s, a) :: pyEnum (s + 1) t

/-- One dict insertion: a later entry for the same key overwrites. -/
def dictInsert (f : String → Option Nat) (p : Nat × String) :
    String → Option Nat :=
  fun x => if x = p.2 then some p.1 else f x

/-- The dict comprehension `t_index = {t: i for i, t in enumerate(tickers)}`
of `fetch_yfinance`, as a lookup function. -/
def buildTIndex (tickers : List String) : String → Option Nat :=
  (pyEnum 0 tickers).foldl dictInsert (fun _ => none)

/-- The sort key `t_index.get(r.ticker, 1e9)` of `fetch_yfinance`. -/
def rowKey (tickers : List String) (r : FinancialRow) : Nat :=
  (buildTIndex tickers r.ticker).getD 1000000000

/-- `fetch_one` inside `fetch_yfinance`: the body of retry attempt `k` is
abstracted as `attempt k` (`none` when the attempt raises); the first
successful attempt's assembled row is returned, and after `max_retries + 1`
failed attempts the ticker's null record is returned. -/
def fetch_one (max_retries : Nat) (attempt : Nat → Option FinancialRow)
    (ticker : String) : FinancialRow :=
  match (List.range (max_retries + 1)).findSome? attempt with
  | some row => row
  | none => nullRecord ticker

/-- The batch phase of `fetch_yfinance`: `rowOf i` is the record produced by
the task for input index `i`, and `completion` is the order in which the
parallel futures complete; rows are collected in completion order and then
sorted (stably, like Python `list.sort`) by the input position of their
ticker. -/
def fetch_yfinance (tickers : List String) (rowOf : Nat → FinancialRow)
    (completion : List Nat) : List FinancialRow :=
  let rows := completion.map rowOf
  rows.insertionSort (fun a b => rowKey tickers a ≤ rowKey tickers b)

/-- Lines 172-175 of `fetch_yfinance`: enterprise value as reported by the
provider, with the fallback `market_cap + total_debt - cash` taken only when
all three inputs are present. -/
def fetch_ev (reported mcap total_debt cash : Option ℚ) : Option ℚ :=
  match reported with
  | some v => some v
  | none =>
    match mcap, total_debt, cash with
    | some m, some d, some c => some (m + d - c)
    | _, _, _ => none

/-- The `enterprise_value` expression of `screening.build_rows`: when the
fetched value is null, Python evaluates `(market_cap or nan) + (total_debt
or 0.0) - (cash or 0.0)` if `market_cap is not None` else `None`; a
`market_cap` of exactly `0.0` is falsy, so it becomes NaN (null here), and a
missing debt or cash defaults to `0.0`. -/
def build_rows_ev (ev mcap total_debt cash : Option ℚ) : Option ℚ :=
  match ev with
  | some v => some v
  | none =>
    match mcap with
    | none => none
    | some m =>
        if m = 0 then none
        else some (m + total_debt.getD 0 - cash.getD 0)

/-! ### Composite scorer: `_calculate_composite_score` of
`undervaluation/factors/factor_calculator.py` -/

/-- Mean of a factor column, skipping nulls as `pandas.Series.mean` does
(its value for an all-null column is never consulted: such a column has no
non-null entry to normalize). -/
def colMean (col : List (Option ℚ)) : ℚ :=
  let vs := col.filterMap id
  if vs.length = 0 then 0 else vs.sum / (vs.length : ℚ)

/-- Z-score normalization of one factor column, lines 183-192: when the
batch standard deviation `sigma` of the column (as computed by pandas, taken
here as a parameter) is positive, each value becomes `(x - mean) / sigma`
with nulls staying null; otherwise the whole normalized column is the
scalar `0`. -/
def normalizeCol (sigma : ℚ) (col : List (Option ℚ)) : List (Option ℚ) :=
  if 0 < sigma then col.map (Option.map (fun x => (x - colMean col) / sigma))
  else col.map (fun _ => some (0 : ℚ))

/-- One `composite_score += normalized * weight` step (for the accounting
and investment groups the source uses `-=` with `abs(weight)`, i.e. a
negative effective weight): pandas addition propagates NaN from either
operand. -/
def addWeighted (acc : List (Option ℚ)) (w : ℚ) (ncol : List (Option ℚ)) :
    List (Option ℚ) :=
  List.zipWith (fun a b =>
    match a, b with
    | some x, some y => some (x + w * y)
    | _, _ => none) acc ncol

/-- The weighted-sum phase of `_calculate_composite_score` over the present
factor columns: each factor is (effective signed weight, pandas column
standard deviation, column), folded onto the zero series of length `n`. -/
def compositeRaw (n : Nat) (factors : List (ℚ × ℚ × List (Option ℚ))) :
    List (Option ℚ) :=
  factors.foldl (fun acc f => addWeighted acc f.1 (normalizeCol f.2.1 f.2.2))
    (List.replicate n (some (0 : ℚ)))

/-- One element of the final `clip(-3σ, 3σ)` of line 237; clip keeps NaN. -/
def clipOne (sigma : ℚ) (x : Option ℚ) : Option ℚ :=
  x.map (fun v => max (-(3 * sigma)) (min (3 * sigma) v))

/-- Lines 234-239 of `_calculate_composite_score`: the composite scores are
clipped to `[-3σ, 3σ]` only when the batch standard deviation `sigma` of the
raw scores is positive. -/
def clipScores (sigma : ℚ) (scores : List (Option ℚ)) : List (Option ℚ) :=
  if 0 < sigma then scores.map (clipOne sigma) else scores

/-! ### Strategy filter engine -/

/-- `ScreenConfig` of `value_screener/config.py`, with its defaults. -/
structure ScreenConfig where
  ev_ebit_min : ℚ := 5.0
  ev_ebit_max : ℚ := 12.0
  fcf_yield_min : ℚ := 0.07
  roic_min : ℚ := 0.12
  interest_coverage_min : ℚ := 4.0
  net_debt_to_ebitda_max : ℚ := 2.0
  deriving DecidableEq

/-- One row of the factor table, restricted to the screened metric
columns. -/
structure MetricsRow where
  ev_ebit : Option ℚ
  fcf_yield : Option ℚ
  roic : Option ℚ
  interest_coverage : Option ℚ
  net_debt_ebitda : Option ℚ
  deriving DecidableEq

/-- Which metric columns are present in the table (`'c' in df.columns`). -/
structure Present where
  ev_ebit : Bool
  fcf_yield : Bool
  roic : Bool
  interest_coverage : Bool
  net_debt_ebitda : Bool
  deriving DecidableEq

/-- `(df[c] >= lo) & (df[c] <= hi) & df[c].notna()` at one value; a pandas
comparison against NaN is `False`, so a null never passes.  This is also
`in_range` of `screening.apply_filters`, whose `try`/`except` yields `False`
on a null. -/
def rangePass (lo hi : ℚ) (v : Option ℚ) : Bool :=
  match v with
  | some x => decide (lo ≤ x) && decide (x ≤ hi)
  | none => false

/-- `(df[c] >= t) & df[c].notna()` at one value; also `ge` of
`screening.apply_filters`. -/
def gePass (t : ℚ) (v : Option ℚ) : Bool :=
  match v with
  | some x => decide (t ≤ x)
  | none => false

/-- `(df[c] < t) & df[c].notna()` at one value; also `lt` of
`screening.apply_filters`. -/
def ltPass (t : ℚ) (v : Option ℚ) : Bool :=
  match v with
  | some x => decide (x < t)
  | none => false

/-- The combine phase shared by the strategies and by `apply_filters`: each
predicate yields one boolean column over the rows, the columns are ANDed
pairwise, and with no predicate at all every row passes
(`df['passed_filters'] = True`). -/
def colFilters (preds : List (MetricsRow → Bool)) (rows : List MetricsRow) :
    List Bool :=
  match preds.map (fun q => rows.map q) with
  | [] => List.replicate rows.length true
  | f :: fs => fs.foldl (List.zipWith and) f

/-- The filter list `ValueScreeningStrategy.apply` builds: one predicate per
metric column present in the table, in source order. -/
def valuePreds (config : ScreenConfig) (p : Present) :
    List (MetricsRow → Bool) :=
  (if p.ev_ebit then
    [fun r => rangePass config.ev_ebit_min config.ev_ebit_max r.ev_ebit]
   else []) ++
  (if p.fcf_yield then
    [fun r => gePass config.fcf_yield_min r.fcf_yield] else []) ++
  (if p.roic then [fun r => gePass config.roic_min r.roic] else []) ++
  (if p.interest_coverage then
    [fun r => gePass config.interest_coverage_min r.interest_coverage]
   else []) ++
  (if p.net_debt_ebitda then
    [fun r => ltPass config.net_debt_to_ebitda_max r.net_debt_ebitda]
   else [])

/-- `ValueScreeningStrategy.apply`: the `passed_filters` column. -/
def valueApply (config : ScreenConfig) (p : Present)
    (rows : List MetricsRow) : List Bool :=
  colFilters (valuePreds config p) rows

/-- The filter list `BuffettScreeningStrategy.apply` builds, with its
hard-coded bounds combined inline exactly as the source writes them. -/
def buffettPreds (config : ScreenConfig) (p : Present) :
    List (MetricsRow → Bool) :=
  (if p.ev_ebit then
    [fun r => rangePass (max 4.0 config.ev_ebit_min)
      (min 12.0 config.ev_ebit_max) r.ev_ebit]
   else []) ++
  (if p.fcf_yield then
    [fun r => gePass (max 0.07 config.fcf_yield_min) r.fcf_yield] else []) ++
  (if p.roic then
    [fun r => gePass (max 0.12 config.roic_min) r.roic] else []) ++
  (if p.interest_coverage then
    [fun r => gePass (max 5.0 config.interest_coverage_min)
      r.interest_coverage]
   else []) ++
  (if p.net_debt_ebitda then
    [fun r => ltPass (min 1.5 config.net_debt_to_ebitda_max)
      r.net_debt_ebitda]
   else [])

/-- `BuffettScreeningStrategy.apply`: the `passed_filters` column. -/
def buffettApply (config : ScreenConfig) (p : Present)
    (rows : List MetricsRow) : List Bool :=
  colFilters (buffettPreds config p) rows

/-- The configuration with every bound replaced by the stricter of the
configured bound and the Buffett hard-coded bound: the larger of the two for
a lower bound, the smaller of the two for an upper bound. -/
def stricterConfig (config : ScreenConfig) : ScreenConfig :=
  { ev_ebit_min := max 4.0 config.ev_ebit_min,
    ev_ebit_max := min 12.0 config.ev_ebit_max,
    fcf_yield_min := max 0.07 config.fcf_yield_min,
    roic_min := max 0.12 config.roic_min,
    interest_coverage_min := max 5.0 config.interest_coverage_min,
    net_debt_to_ebitda_max := min 1.5 config.net_debt_to_ebitda_max }

/-- `screening.apply_filters`: its four predicates, unconditionally (the
columns always exist in a `build_rows` table). -/
def apply_filters (config : ScreenConfig) (rows : List MetricsRow) :
    List Bool :=
  colFilters
    [fun r => rangePass config.ev_ebit_min config.ev_ebit_max r.ev_ebit,
     fun r => gePass config.fcf_yield_min r.fcf_yield,
     fun r => gePass config.roic_min r.roic,
     fun r => ltPass config.net_debt_to_ebitda_max r.net_debt_ebitda] rows

/-- Row-level reading of the value strategy: the conjunction of exactly the
predicates whose columns are present. -/
def valueRowPass (config : ScreenConfig) (p : Present) (r : MetricsRow) :
    Bool :=
  (!p.ev_ebit || rangePass config.ev_ebit_min config.ev_ebit_max r.ev_ebit) &&
  (!p.fcf_yield || gePass config.fcf_yield_min r.fcf_yield) &&
  (!p.roic || gePass config.roic_min r.roic) &&
  (!p.interest_coverage ||
    gePass config.interest_coverage_min r.interest_coverage) &&
  (!p.net_debt_ebitda || ltPass config.net_debt_to_ebitda_max r.net_debt_ebitda)

/-- Row-level reading of the Buffett strategy. -/
def buffettRowPass (config : ScreenConfig) (p : Present) (r : MetricsRow) :
    Bool :=
  (!p.ev_ebit || rangePass (max 4.0 config.ev_ebit_min)
    (min 12.0 config.ev_ebit_max) r.ev_ebit) &&
  (!p.fcf_yield || gePass (max 0.07 config.fcf_yield_min) r.fcf_yield) &&
  (!p.roic || gePass (max 0.12 config.roic_min) r.roic) &&
  (!p.interest_coverage ||
    gePass (max 5.0 config.interest_coverage_min) r.interest_coverage) &&
  (!p.net_debt_ebitda ||
    ltPass (min 1.5 config.net_debt_to_ebitda_max) r.net_debt_ebitda)

/-- A concrete healthy record used in closed instances. -/
def rowA : FinancialRow :=
  { ticker := "A", name := some "Alpha", price := some 10,
    market_cap := some 1000, total_debt := some 100,
    cash_and_equivalents := some 50, ebit := some 80, ebitda := some 90,
    operating_cash_flow := some 70, capital_expenditures := some (-20) }

/-- A second concrete healthy record used in closed instances. -/
def rowC : FinancialRow :=
  { ticker := "C", name := some "Gamma", price := some 20,
    market_cap := some 2000, total_debt := some 300,
    cash_and_equivalents := some 100, ebit := some 150, ebitda := some 180,
    operating_cash_flow := some 160, capital_expenditures := some (-40) }

/-! ## Helper lemmas -/

theorem foldl_and_cols (qs : List (MetricsRow → Bool))
    (q0 : MetricsRow → Bool) (rows : List MetricsRow) :
    (qs.map (fun q => rows.map q)).foldl (List.zipWith and) (rows.map q0)
      = rows.map (fun r => qs.foldl (fun b q => b && q r) (q0 r)) := by
  induction qs generalizing q0 with
  | nil => rfl
  | cons q qs ih =>
    simp only [List.map_cons, List.foldl_cons]
    rw [List.zipWith_map (fun a b => a && b) q0 q rows rows,
      List.zipWith_same]
    exact ih (fun r => q0 r && q r)

theorem foldl_and_eq_all (qs : List (MetricsRow → Bool)) (r : MetricsRow)
    (b : Bool) :
    qs.foldl (fun acc q => acc && q r) b = (b && qs.all (fun q => q r)) := by
  induction qs generalizing b with
  | nil => simp
  | cons q qs ih => simp [List.foldl_cons, ih, Bool.and_assoc]

theorem colFilters_eq_map_all (preds : List (MetricsRow → Bool))
    (rows : List MetricsRow) :
    colFilters preds rows = rows.map (fun r => preds.all (fun q => q r)) := by
  cases preds with
  | nil => simp [colFilters]
  | cons q0 qs =>
    simp only [colFilters, List.map_cons]
    rw [foldl_and_cols]
    refine List.map_congr_left (fun r _ => ?_)
    rw [foldl_and_eq_all, List.all_cons]

theorem valueApply_eq_map (config : ScreenConfig) (p : Present)
    (rows : List MetricsRow) :
    valueApply config p rows = rows.map (valueRowPass config p) := by
  rw [valueApply, colFilters_eq_map_all]
  refine List.map_congr_left (fun r _ => ?_)
  rcases p with ⟨e, f, rc, ic, nd⟩
  cases e <;> cases f <;> cases rc <;> cases ic <;> cases nd <;>
    simp [valuePreds, valueRowPass, Bool.and_assoc]

theorem buffettApply_eq_map (config : ScreenConfig) (p : Present)
    (rows : List MetricsRow) :
    buffettApply config p rows = rows.map (buffettRowPass config p) := by
  rw [buffettApply, colFilters_eq_map_all]
  refine List.map_congr_left (fun r _ => ?_)
  rcases p with ⟨e, f, rc, ic, nd⟩
  cases e <;> cases f <;> cases rc <;> cases ic <;> cases nd <;>
    simp [buffettPreds, buffettRowPass, Bool.and_assoc]

/-! ## Claim theorems -/

/-- Claim C8: in the Value and Buffett strategies a threshold predicate over
a column absent from the table is skipped (each row's pass flag is the
conjunction of the predicates for the present columns only), and when none
of the required columns is present every row gets `passed_filters = True`. -/
theorem C8_absent_columns_skipped :
    (∀ config rows, valueApply config ⟨false, false, false, false, false⟩ rows
      = List.replicate rows.length true)
    ∧ (∀ config rows,
        buffettApply config ⟨false, false, false, false, false⟩ rows
          = List.replicate rows.length true)
    ∧ (∀ config p rows,
        valueApply config p rows = rows.map (valueRowPass config p))
    ∧ (∀ config p rows,
        buffettApply config p rows = rows.map (buffettRowPass config p)) :=
  ⟨fun _ _ => rfl, fun _ _ => rfl, valueApply_eq_map, buffettApply_eq_map⟩

/-- Claim C9: every effective Buffett bound is the stricter of the
configured bound and the hard-coded bound — the larger of the two for the
lower bounds (`ev_ebit_min`, `fcf_yield_min`, `roic_min`,
`interest_coverage_min`) and the smaller of the two for the upper bounds
(`ev_ebit_max`, `net_debt_to_ebitda_max`): applying the Buffett strategy is
applying the Value predicate shapes with that stricter configuration. -/
theorem C9_buffett_stricter_bounds :
    ∀ config p rows,
      buffettApply config p rows = valueApply (stricterConfig config) p rows :=
  fun _ _ _ => rfl

/-- Claim C10: in both strategies' `apply` and in `apply_filters`, a row
with a null in a present required metric column gets
`passed_filters = False` (a null never satisfies a threshold predicate). -/
theorem C10_null_metric_fails :
    ∀ (config : ScreenConfig) (p : Present) (rows : List MetricsRow)
      (i : Nat) (r : MetricsRow), rows[i]? = some r →
      (((p.ev_ebit = true ∧ r.ev_ebit = none) ∨
        (p.fcf_yield = true ∧ r.fcf_yield = none) ∨
        (p.roic = true ∧ r.roic = none) ∨
        (p.interest_coverage = true ∧ r.interest_coverage = none) ∨
        (p.net_debt_ebitda = true ∧ r.net_debt_ebitda = none)) →
        (valueApply config p rows)[i]? = some false ∧
        (buffettApply config p rows)[i]? = some false)
      ∧ ((r.ev_ebit = none ∨ r.fcf_yield = none ∨ r.roic = none ∨
          r.net_debt_ebitda = none) →
        (apply_filters config rows)[i]? = some false) := by
  intro config p rows i r hr
  constructor
  · intro h
    have hv : (valueApply config p rows)[i]?
        = some (valueRowPass config p r) := by
      rw [valueApply_eq_map, List.getElem?_map, hr]; rfl
    have hb : (buffettApply config p rows)[i]?
        = some (buffettRowPass config p r) := by
      rw [buffettApply_eq_map, List.getElem?_map, hr]; rfl
    rw [hv, hb]
    rcases h with ⟨hp, hn⟩ | ⟨hp, hn⟩ | ⟨hp, hn⟩ | ⟨hp, hn⟩ | ⟨hp, hn⟩ <;>
      exact ⟨by simp [valueRowPass, hp, hn, rangePass, gePass, ltPass],
        by simp [buffettRowPass, hp, hn, rangePass, gePass, ltPass]⟩
  · intro h
    rw [apply_filters, colFilters_eq_map_all, List.getElem?_map, hr]
    rcases h with hn | hn | hn | hn <;>
      simp [hn, rangePass, gePass, ltPass]

/-- Closed instance of C10: a row whose `roic` is null (all columns
present, default configuration) fails all three filter paths. -/
theorem C10_null_metric_witness :
    (valueApply {} ⟨true, true, true, true, true⟩
      [⟨some 8, some 0.08, none, some 6, some 1⟩])[0]? = some false ∧
    (buffettApply {} ⟨true, true, true, true, true⟩
      [⟨some 8, some 0.08, none, some 6, some 1⟩])[0]? = some false ∧
    (apply_filters {} [⟨some 8, some 0.08, none, some 6, some 1⟩])[0]?
      = some false := by
  have h := C10_null_metric_fails {} ⟨true, true, true, true, true⟩
    [⟨some 8, some 0.08, none, some 6, some 1⟩] 0
    ⟨some 8, some 0.08, none, some 6, some 1⟩ rfl
  exact ⟨(h.1 (Or.inr (Or.inr (Or.inl ⟨rfl, rfl⟩)))).1,
    (h.1 (Or.inr (Or.inr (Or.inl ⟨rfl, rfl⟩)))).2,
    h.2 (Or.inr (Or.inr (Or.inl rfl)))⟩

/-- Claim C5: with a positive batch standard deviation of the raw composite
scores, every clipped score lies in `[-3σ, 3σ]` and a raw score of `10σ` is
clipped to exactly `3σ`; with a zero standard deviation the scores are
returned unchanged. -/
theorem C5_composite_clipping :
    ∀ (sigma : ℚ) (scores : List (Option ℚ)),
      (0 < sigma → ∀ y ∈ clipScores sigma scores, ∀ q : ℚ, y = some q →
        -(3 * sigma) ≤ q ∧ q ≤ 3 * sigma)
      ∧ (sigma = 0 → clipScores sigma scores = scores)
      ∧ (0 < sigma → clipOne sigma (some (10 * sigma)) = some (3 * sigma)) := by
  intro sigma scores
  refine ⟨?_, ?_, ?_⟩
  · intro hs y hy q hq
    rw [clipScores, if_pos hs] at hy
    rcases List.mem_map.1 hy with ⟨x, _, hxy⟩
    subst hq
    rcases x with _ | v
    · simp [clipOne] at hxy
    · have hq2 : max (-(3 * sigma)) (min (3 * sigma) v) = q :=
        Option.some.inj hxy
      rw [← hq2]
      refine ⟨le_max_left _ _, max_le (by linarith) (min_le_left _ _)⟩
  · intro hs
    rw [clipScores, if_neg (by rw [hs]; exact lt_irrefl 0)]
  · intro hs
    have h1 : min (3 * sigma) (10 * sigma) = 3 * sigma :=
      min_eq_left (by nlinarith)
    have h2 : max (-(3 * sigma)) (3 * sigma) = 3 * sigma :=
      max_eq_right (by linarith)
    show some (max (-(3 * sigma)) (min (3 * sigma) (10 * sigma)))
      = some (3 * sigma)
    rw [h1, h2]

/-- Closed instance of C5 at `σ = 1` and the raw score `10`. -/
theorem C5_clipping_witness :
    (-(3 * (1 : ℚ)) ≤ 3 ∧ (3 : ℚ) ≤ 3 * 1) ∧
    clipOne 1 (some (10 * 1)) = some (3 * 1) := by
  have h10 : clipOne 1 (some (10 : ℚ)) = some 3 := by
    show some (max (-(3 * (1 : ℚ))) (min (3 * (1 : ℚ)) 10)) = some 3
    rw [min_def, max_def]
    norm_num
  have hm : some (3 : ℚ) ∈ clipScores 1 [some 10] := by
    rw [clipScores, if_pos (show (0 : ℚ) < 1 by norm_num), List.map_cons, h10]
    exact List.mem_cons_self _ _
  exact ⟨(C5_composite_clipping 1 [some 10]).1 (by norm_num) (some 3) hm 3 rfl,
    (C5_composite_clipping 1 [some 10]).2.2 (by norm_num)⟩

/-- Claim C3: every factor formula returns null when a required input is
null or its designated denominator is zero — it never divides by zero. -/
theorem C3_null_and_zero_denominator_safety :
    (∀ ev ebit : Option ℚ, ev = none ∨ ebit = none ∨ ebit = some 0 →
      ValueScreener.ev_ebit ev ebit = none)
    ∧ (∀ m o c : Option ℚ, m = none ∨ o = none ∨ c = none ∨ m = some 0 →
      fcf_yield m o c = none)
    ∧ (∀ e ie : Option ℚ, e = none ∨ ie = none ∨ ie = some 0 →
      interest_coverage e ie = none)
    ∧ (∀ d c e : Option ℚ, d = none ∨ c = none ∨ e = none ∨ e = some 0 →
      net_debt_to_ebitda d c e = none)
    ∧ (∀ e ev : Option ℚ, e = none ∨ ev = none ∨ ev = some 0 →
      calculate_earnings_yield e ev = none)
    ∧ (∀ o c m : Option ℚ, o = none ∨ c = none ∨ m = none ∨ m = some 0 →
      calculate_fcf_yield o c m = none)
    ∧ (∀ t m : Option ℚ, t = none ∨ m = none ∨ m = some 0 →
      calculate_book_to_market t m = none)
    ∧ (∀ g t : Option ℚ, g = none ∨ t = none ∨ t = some 0 →
      calculate_gross_profitability g t = none)
    ∧ (∀ ev e : Option ℚ, ev = none ∨ e = none ∨ e = some 0 →
      calculate_ev_ebit ev e = none)
    ∧ (∀ e ie : Option ℚ, e = none ∨ ie = none ∨ ie = some 0 →
      calculate_interest_coverage e ie = none) := by
  refine ⟨?_, ?_, ?_, ?_, ?_, ?_, ?_, ?_, ?_, ?_⟩
  · intro a b h
    rcases a with _ | a <;> rcases b with _ | b <;>
      simp [ValueScreener.ev_ebit] at h ⊢ <;> simp [h]
  · intro m o c h
    rcases m with _ | m <;> rcases o with _ | o <;> rcases c with _ | c <;>
      simp [fcf_yield] at h ⊢ <;> simp [h]
  · intro a b h
    rcases a with _ | a <;> rcases b with _ | b <;>
      simp [interest_coverage] at h ⊢ <;> simp [h]
  · intro d c e h
    rcases d with _ | d <;> rcases c with _ | c <;> rcases e with _ | e <;>
      simp [net_debt_to_ebitda] at h ⊢ <;> simp [h]
  · intro a b h
    rcases a with _ | a <;> rcases b with _ | b <;>
      simp [calculate_earnings_yield] at h ⊢ <;> simp [h]
  · intro o c m h
    rcases o with _ | o <;> rcases c with _ | c <;> rcases m with _ | m <;>
      simp [calculate_fcf_yield] at h ⊢ <;> simp [h]
  · intro a b h
    rcases a with _ | a <;> rcases b with _ | b <;>
      simp [calculate_book_to_market] at h ⊢ <;> simp [h]
  · intro a b h
    rcases a with _ | a <;> rcases b with _ | b <;>
      simp [calculate_gross_profitability] at h ⊢ <;> simp [h]
  · intro a b h
    rcases a with _ | a <;> rcases b with _ | b <;>
      simp [calculate_ev_ebit] at h ⊢ <;> simp [h]
  · intro a b h
    rcases a with _ | a <;> rcases b with _ | b <;>
      simp [calculate_interest_coverage] at h ⊢ <;> simp [h]

/-- Closed instance of C3 at the spec's example: `ev_ebit(ev=100, ebit=0)`
is null in both factor libraries. -/
theorem C3_safety_witness :
    ValueScreener.ev_ebit (some 100) (some 0) = none ∧
    calculate_ev_ebit (some 100) (some 0) = none :=
  ⟨C3_null_and_zero_denominator_safety.1 (some 100) (some 0)
      (Or.inr (Or.inr rfl)),
    C3_null_and_zero_denominator_safety.2.2.2.2.2.2.2.2.1 (some 100) (some 0)
      (Or.inr (Or.inr rfl))⟩

/-- Claim C4: both ROIC implementations estimate the tax rate as
`tax / pretax` clipped to `[0, 0.45]` with fallback `0.25` when the pretax
income is null or zero, compute `NOPAT = ebit * (1 - rate)` over
`invested_capital = total_debt + total_equity - cash`, and return null when
the invested capital is non-positive; a rate of `0.9` is clipped to `0.45`. -/
theorem C4_roic_formula :
    (∀ e t p d q c : Option ℚ,
      roic_approx e t p d q c = roic_spec e t p d q c)
    ∧ (∀ e t p d q c : Option ℚ,
      calculate_roic e t p d q c = roic_spec e t p d q c)
    ∧ specTaxRate (some 0.9) (some 1) = 0.45
    ∧ roic_approx (some 1) (some 0.9) (some 1) (some 1) (some 1) (some 0)
        = some (11 / 40) := by
  refine ⟨?_, ?_, ?_, ?_⟩
  · intro e t p d q c
    rcases e with _ | e <;> rcases d with _ | d <;> rcases q with _ | q <;>
      rcases c with _ | c <;> rcases t with _ | t <;> rcases p with _ | p <;>
      simp [roic_approx, roic_spec, specTaxRate]
  · intro e t p d q c
    rcases e with _ | e <;> rcases d with _ | d <;> rcases q with _ | q <;>
      rcases c with _ | c <;> rcases t with _ | t <;> rcases p with _ | p <;>
      simp [calculate_roic, roic_spec, specTaxRate]
  · norm_num [specTaxRate, min_def, max_def]
  · norm_num [roic_approx, min_def, max_def]

/-- Counterexample to C7 as stated: `build_rows` derives an enterprise
value from a present market cap even though debt and cash are both missing
(it does not leave it null). -/
theorem C7_counterexample_missing_debt_cash :
    build_rows_ev none (some 100) none none = some 100 ∧
    some (100 : ℚ) ≠ (none : Option ℚ) := by
  refine ⟨?_, by simp⟩
  norm_num [build_rows_ev]

/-- Amended C7: in the fetcher the enterprise-value fallback
`market_cap + total_debt - cash` is taken only when all three inputs are
present, otherwise null; in `build_rows` the fallback is taken whenever
`market_cap` is present and nonzero, with missing debt or cash defaulted to
`0` (a zero market cap is falsy in Python and yields null), and it stays
null only when `market_cap` is missing. -/
theorem C7_ev_fallback :
    (∀ (v : ℚ) (m d c : Option ℚ), fetch_ev (some v) m d c = some v)
    ∧ (∀ m d c : ℚ,
        fetch_ev none (some m) (some d) (some c) = some (m + d - c))
    ∧ (∀ m d c : Option ℚ, m = none ∨ d = none ∨ c = none →
        fetch_ev none m d c = none)
    ∧ (∀ (v : ℚ) (m d c : Option ℚ), build_rows_ev (some v) m d c = some v)
    ∧ (∀ d c : Option ℚ, build_rows_ev none none d c = none)
    ∧ (∀ (m : ℚ) (d c : Option ℚ), m ≠ 0 →
        build_rows_ev none (some m) d c = some (m + d.getD 0 - c.getD 0))
    ∧ (∀ d c : Option ℚ, build_rows_ev none (some 0) d c = none) := by
  refine ⟨fun v m d c => rfl, fun m d c => rfl, ?_, fun v m d c => rfl,
    fun d c => rfl, ?_, ?_⟩
  · intro m d c h
    rcases m with _ | m <;> rcases d with _ | d <;> rcases c with _ | c <;>
      simp [fetch_ev] at h ⊢
  · intro m d c hm
    simp [build_rows_ev, hm]
  · intro d c
    simp [build_rows_ev]

/-- Closed instance of C7's amended statement: a fetcher fallback with a
missing market cap stays null, and a `build_rows` fallback with missing
cash treats it as zero. -/
theorem C7_ev_fallback_witness :
    fetch_ev none none (some 1) (some 2) = none ∧
    build_rows_ev none (some 2) (some 3) none = some 5 := by
  constructor
  · exact C7_ev_fallback.2.2.1 none (some 1) (some 2) (Or.inl rfl)
  · have h := C7_ev_fallback.2.2.2.2.2.1 2 (some 3) none (by norm_num)
    rw [h]
    norm_num

theorem normalizeCol_length (sigma : ℚ) (col : List (Option ℚ)) :
    (normalizeCol sigma col).length = col.length := by
  rw [normalizeCol]
  split <;> simp

theorem addWeighted_length (acc : List (Option ℚ)) (w : ℚ)
    (ncol : List (Option ℚ)) :
    (addWeighted acc w ncol).length = min acc.length ncol.length := by
  rw [addWeighted, List.length_zipWith]

theorem addWeighted_none_right (acc ncol : List (Option ℚ)) (w : ℚ) (i : Nat)
    (ha : i < acc.length) (hn : ncol[i]? = some none) :
    (addWeighted acc w ncol)[i]? = some none := by
  obtain ⟨a, hai⟩ : ∃ a, acc[i]? = some a := ⟨acc[i], List.getElem?_eq_getElem ha⟩
  rw [addWeighted, List.getElem?_zipWith, hai, hn]
  cases a <;> rfl

theorem addWeighted_none_left (acc ncol : List (Option ℚ)) (w : ℚ) (i : Nat)
    (hn : i < ncol.length) (ha : acc[i]? = some none) :
    (addWeighted acc w ncol)[i]? = some none := by
  obtain ⟨b, hbi⟩ : ∃ b, ncol[i]? = some b :=
    ⟨ncol[i], List.getElem?_eq_getElem hn⟩
  rw [addWeighted, List.getElem?_zipWith, ha, hbi]

theorem normalizeCol_none (sigma : ℚ) (col : List (Option ℚ)) (i : Nat)
    (hs : 0 < sigma) (hn : col[i]? = some none) :
    (normalizeCol sigma col)[i]? = some none := by
  rw [normalizeCol, if_pos hs, List.getElem?_map, hn]
  rfl

theorem foldl_addWeighted_none (factors : List (ℚ × ℚ × List (Option ℚ))) :
    ∀ (acc : List (Option ℚ)) (n i : Nat), acc.length = n → i < n →
    (∀ f ∈ factors, (f.2.2 : List (Option ℚ)).length = n) →
    (acc[i]? = some none ∨
      ∃ w sigma col, (w, sigma, col) ∈ factors ∧ 0 < sigma ∧
        col[i]? = some none) →
    (factors.foldl
      (fun a f => addWeighted a f.1 (normalizeCol f.2.1 f.2.2)) acc)[i]?
      = some none := by
  induction factors with
  | nil =>
    intro acc n i _ _ _ h
    rcases h with h | ⟨w, sigma, col, hmem, _, _⟩
    · simpa using h
    · exact absurd hmem (List.not_mem_nil _)
  | cons f fs ih =>
    intro acc n i hlen hi hflen h
    rw [List.foldl_cons]
    have hfl : (f.2.2 : List (Option ℚ)).length = n :=
      hflen f (List.mem_cons_self _ _)
    have hlen2 : (addWeighted acc f.1 (normalizeCol f.2.1 f.2.2)).length = n := by
      rw [addWeighted_length, normalizeCol_length, hfl, hlen, Nat.min_self]
    refine ih _ n i hlen2 hi
      (fun g hg => hflen g (List.mem_cons_of_mem _ hg)) ?_
    rcases h with h | ⟨w, sigma, col, hmem, hs, hnull⟩
    · left
      refine addWeighted_none_left _ _ _ _ ?_ h
      rw [normalizeCol_length, hfl]
      exact hi
    · rcases List.mem_cons.1 hmem with heq | hmem2
      · left
        refine addWeighted_none_right _ _ _ _ (by rw [hlen]; exact hi) ?_
        rw [← heq]
        exact normalizeCol_none sigma col i hs hnull
      · exact Or.inr ⟨w, sigma, col, hmem2, hs, hnull⟩

/-- Counterexample to C6 as stated: with a null `earnings_yield` for row 0
(column standard deviation positive), the weighted sum makes row 0's
composite score null — whereas scoring with only the remaining non-null
factor column gives row 0 an actual number, so the null row is NOT
"determined by its remaining non-null factors". -/
theorem C6_counterexample_null_poisons :
    (compositeRaw 3 [(1/5, 1, [none, some 1, some 3]),
        (1/10, 1, [some 1, some 2, some 4])])[0]?
      = some (none : Option ℚ) ∧
    (compositeRaw 3 [(1/10, 1, [some 1, some 2, some 4])])[0]?
      = some (some ((-2 : ℚ)/15)) := by
  constructor
  · norm_num [compositeRaw, addWeighted, normalizeCol, colMean,
      List.filterMap, List.replicate, List.zipWith]
  · norm_num [compositeRaw, addWeighted, normalizeCol, colMean,
      List.filterMap, List.replicate, List.zipWith]
    rw [if_neg (by simp : ¬(some (1:ℚ) = none ∧ some (2:ℚ) = none ∧
      some (4:ℚ) = none))]
    norm_num

/-- Amended C6: a null in a factor column whose batch standard deviation is
positive is not treated as zero, but it is not excluded either — the null
propagates through `composite_score += normalized * weight` and the whole
row's composite score is null. -/
theorem C6_null_factor_propagates :
    ∀ (n : Nat) (factors : List (ℚ × ℚ × List (Option ℚ)))
      (w sigma : ℚ) (col : List (Option ℚ)) (i : Nat),
      (w, sigma, col) ∈ factors →
      (∀ f ∈ factors, (f.2.2 : List (Option ℚ)).length = n) →
      0 < sigma → i < n → col[i]? = some none →
      (compositeRaw n factors)[i]? = some none := by
  intro n factors w sigma col i hmem hlen hs hi hnull
  rw [compositeRaw]
  exact foldl_addWeighted_none factors _ n i (List.length_replicate _ _) hi
    hlen (Or.inr ⟨w, sigma, col, hmem, hs, hnull⟩)

/-- Closed instance of C6's amended statement at the counterexample data. -/
theorem C6_null_factor_witness :
    (compositeRaw 3 [((1 : ℚ)/5, 1, [none, some 1, some 3]),
      (1/10, 1, [some 1, some 2, some 4])])[0]? = some (none : Option ℚ) :=
  C6_null_factor_propagates 3 _ (1/5) 1 [none, some 1, some 3] 0
    (List.mem_cons_self _ _) (by decide) (by norm_num) (by norm_num) rfl

theorem foldl_dictInsert_not_mem (l : List String) :
    ∀ (s : Nat) (f : String → Option Nat) (x : String), x ∉ l →
      (pyEnum s l).foldl dictInsert f x = f x := by
  induction l with
  | nil => intro s f x _; rfl
  | cons a t ih =>
    intro s f x hx
    rw [pyEnum, List.foldl_cons,
      ih (s + 1) (dictInsert f (s, a)) x
        (fun h => hx (List.mem_cons_of_mem _ h))]
    have hxa : x ≠ a := fun h => hx (h ▸ List.mem_cons_self a t)
    simp [dictInsert, hxa]

theorem foldl_dictInsert_get (l : List String) :
    ∀ (s : Nat) (f : String → Option Nat), l.Nodup →
      ∀ (i : Nat) (h : i < l.length),
      (pyEnum s l).foldl dictInsert f (l.get ⟨i, h⟩) = some (s + i) := by
  induction l with
  | nil => intro s f _ i h; exact absurd h (Nat.not_lt_zero i)
  | cons a t ih =>
    intro s f hnd i h
    rw [pyEnum, List.foldl_cons]
    rcases i with _ | i
    · show (pyEnum (s + 1) t).foldl dictInsert (dictInsert f (s, a)) a
        = some (s + 0)
      rw [foldl_dictInsert_not_mem t (s + 1) _ a (List.nodup_cons.1 hnd).1]
      simp [dictInsert]
    · have h2 : i < t.length := Nat.lt_of_succ_lt_succ h
      show (pyEnum (s + 1) t).foldl dictInsert (dictInsert f (s, a))
        (t.get ⟨i, h2⟩) = some (s + (i + 1))
      rw [ih (s + 1) _ (List.nodup_cons.1 hnd).2 i h2]
      congr 1
      omega

theorem buildTIndex_get (tickers : List String) (hnd : tickers.Nodup)
    (i : Nat) (h : i < tickers.length) :
    buildTIndex tickers (tickers.get ⟨i, h⟩) = some i := by
  rw [buildTIndex, foldl_dictInsert_get tickers 0 _ hnd i h, Nat.zero_add]

/-- A stable sort by pairwise-distinct keys rebuilds the unique strictly
key-sorted arrangement. -/
theorem insertionSort_eq_of_perm_sorted {α : Type} (key : α → Nat)
    (l target : List α) (hp : l.Perm target)
    (hnd : (target.map key).Nodup)
    (hsorted : List.Sorted (fun a b => key a < key b) target) :
    l.insertionSort (fun a b => key a ≤ key b) = target := by
  haveI : IsTotal α (fun a b => key a ≤ key b) := ⟨fun a b => Nat.le_total _ _⟩
  haveI : IsTrans α (fun a b => key a ≤ key b) :=
    ⟨fun a b c h1 h2 => Nat.le_trans h1 h2⟩
  haveI : IsAntisymm α (fun a b => key a < key b) :=
    ⟨fun a b h1 h2 => absurd h1 (Nat.lt_asymm h2)⟩
  have hp1 : (l.insertionSort (fun a b => key a ≤ key b)).Perm target :=
    (List.perm_insertionSort _ _).trans hp
  have hle : List.Sorted (fun a b => key a ≤ key b)
      (l.insertionSort (fun a b => key a ≤ key b)) :=
    List.sorted_insertionSort _ _
  have hndk : ((l.insertionSort (fun a b => key a ≤ key b)).map key).Nodup :=
    ((hp1.map key).nodup_iff).2 hnd
  have hne := List.pairwise_map.1 hndk
  have hlt : List.Sorted (fun a b => key a < key b)
      (l.insertionSort (fun a b => key a ≤ key b)) :=
    (hle.and hne).imp (fun h => Nat.lt_of_le_of_ne h.1 h.2)
  exact List.eq_of_perm_of_sorted hp1 hlt hsorted

/-- The resequencing phase of `fetch_yfinance`: with pairwise-distinct
tickers, whatever the completion order of the parallel tasks, the sort by
`t_index` restores exactly the input order of the per-index task results. -/
theorem fetch_restores_input_order (tickers : List String)
    (rowOf : Nat → FinancialRow) (completion : List Nat)
    (hnd : tickers.Nodup)
    (hperm : completion.Perm (List.range tickers.length))
    (ht : ∀ (i : Nat) (h : i < tickers.length),
      (rowOf i).ticker = tickers.get ⟨i, h⟩) :
    fetch_yfinance tickers rowOf completion
      = (List.range tickers.length).map rowOf := by
  have hkeyi : ∀ (i : Nat), i < tickers.length →
      rowKey tickers (rowOf i) = i := by
    intro i hi
    rw [rowKey, ht i hi, buildTIndex_get tickers hnd i hi, Option.getD_some]
  have hkeys : (((List.range tickers.length).map rowOf).map (rowKey tickers))
      = List.range tickers.length := by
    rw [List.map_map]
    have hcong : ∀ i ∈ List.range tickers.length,
        (rowKey tickers ∘ rowOf) i = id i := by
      intro i hi
      exact hkeyi i (List.mem_range.1 hi)
    rw [List.map_congr_left hcong, List.map_id]
  have hsorted : List.Sorted
      (fun a b => rowKey tickers a < rowKey tickers b)
      ((List.range tickers.length).map rowOf) := by
    refine List.pairwise_map.2 ?_
    refine List.Pairwise.imp_of_mem ?_ (List.pairwise_lt_range _)
    intro a b ha hb hlt
    rw [hkeyi a (List.mem_range.1 ha), hkeyi b (List.mem_range.1 hb)]
    exact hlt
  show (completion.map rowOf).insertionSort
    (fun a b => rowKey tickers a ≤ rowKey tickers b)
    = (List.range tickers.length).map rowOf
  refine insertionSort_eq_of_perm_sorted (rowKey tickers) _ _
    (hperm.map rowOf) ?_ hsorted
  rw [hkeys]
  exact List.nodup_range _

/-- Counterexample to C1 as stated: with the duplicate-bearing input
`["A", "B", "A"]` the dict `t_index` keeps only the LAST index of a
repeated ticker, so even under the identity completion order the sorted
output comes back as `["B", "A", "A"]`, not in input order. -/
theorem C1_counterexample_duplicate_tickers :
    (fetch_yfinance ["A", "B", "A"]
      (fun i => nullRecord (["A", "B", "A"].getD i "X")) [0, 1, 2]).map
      FinancialRow.ticker = ["B", "A", "A"] ∧
    ("B" :: "A" :: "A" :: List.nil) ≠ (["A", "B", "A"] : List String) := by
  constructor
  · decide
  · decide

/-- Amended C1: for every input ticker list with pairwise-distinct tickers,
`fetch_yfinance` returns exactly one record per input ticker — never fewer
— in the same order as the input tickers, regardless of the completion
order of the parallel fetch tasks. -/
theorem C1_order_restored_distinct (tickers : List String)
    (rowOf : Nat → FinancialRow) (completion : List Nat)
    (hnd : tickers.Nodup)
    (hperm : completion.Perm (List.range tickers.length))
    (ht : ∀ (i : Nat) (h : i < tickers.length),
      (rowOf i).ticker = tickers.get ⟨i, h⟩) :
    (fetch_yfinance tickers rowOf completion).map FinancialRow.ticker
      = tickers ∧
    (fetch_yfinance tickers rowOf completion).length = tickers.length := by
  have heq := fetch_restores_input_order tickers rowOf completion hnd hperm ht
  constructor
  · rw [heq, List.map_map]
    refine List.ext_getElem (by simp) ?_
    intro i h1 h2
    simp only [List.getElem_map, List.getElem_range, Function.comp_apply]
    have hi : i < tickers.length := h2
    rw [ht i hi]
    simp
  · rw [heq]
    simp

/-- Closed instance of the amended C1 at the spec's example: tickers
`["C", "A", "B"]` under a scrambled completion order `[2, 0, 1]` come back
in input order. -/
theorem C1_order_witness :
    (fetch_yfinance ["C", "A", "B"]
      (fun i => nullRecord (["C", "A", "B"].getD i "X")) [2, 0, 1]).map
      FinancialRow.ticker = ["C", "A", "B"] ∧
    (fetch_yfinance ["C", "A", "B"]
      (fun i => nullRecord (["C", "A", "B"].getD i "X")) [2, 0, 1]).length
      = 3 :=
  C1_order_restored_distinct ["C", "A", "B"]
    (fun i => nullRecord (["C", "A", "B"].getD i "X")) [2, 0, 1]
    (by decide) (by decide)
    (by
      intro i h
      have h3 : i < 3 := by simpa using h
      interval_cases i <;> rfl)

/-- Claim C2 (retry-exhaustion side, evaluated at a concrete batch): when
ticker "B" fails all `max_retries + 1 = 3` attempts, the batch still comes
back with one record per ticker in input order, "B" mapped to its null
record — every non-identity field `None` — and the records of "A" and "C"
exactly as their own tasks produced them. -/
theorem C2_failed_ticker_null_record :
    fetch_yfinance ["A", "B", "C"]
      (fun i => if i = 0 then rowA
        else if i = 1 then fetch_one 2 (fun _ => none) "B" else rowC)
      [1, 2, 0]
      = [rowA, nullRecord "B", rowC] ∧
    nullRecord "B" =
      { ticker := "B", name := none, price := none, market_cap := none,
        total_debt := none, cash_and_equivalents := none, ebit := none,
        ebitda := none, operating_cash_flow := none,
        capital_expenditures := none, interest_expense := none,
        income_tax_expense := none, pretax_income := none,
        total_stockholder_equity := none, enterprise_value := none } := by
  constructor
  · decide
  · rfl

end ValueScreener
